import Mathlib

/-!
# Verification of the doc-agent extraction pipeline

Shallow embedding of the parts of the `doc-agent` repository that the
verified properties concern:

* `packages/extract/src/schemas.ts` — the lenient zod validator
  (`LineItemSchema`, `DocumentDataSchema`, `safeNumber`, `normalizeDate`),
  embedded together with the semantics of the zod combinators it uses
  (`z.coerce.number()`, `.optional()`, `.nullish()`, `.enum(...).default(...).catch(...)`)
  and of the JavaScript runtime primitives they rely on
  (`Number(...)` coercion, `new Date(...)` parsing, `toISOString`).
* `packages/extract/src/ocr.ts` — `ocrImages`, page-marked OCR concatenation.
* `packages/extract/src/providers/ollama.ts` — `extractWithOllama`,
  the single-retry-on-validation-failure control flow.

Model boundaries (stated once here, referenced in doc comments below):

* JSON-like values are modelled by the inductive `Json`; JavaScript
  `undefined` is modelled as an absent key / `Option.none`.  Objects are
  association lists; an object produced by `JSON.parse` binds each key once
  (later duplicates overwrite earlier ones), so lookup takes the first hit.
* JavaScript numbers are modelled as `ℚ`, with `Option ℚ` where `none`
  stands for `NaN`.  (Float rounding and infinities are outside the model;
  none of the verified properties depend on them.)
* `Number(string)` is modelled on the decimal grammar
  `[ws] [+-] digits [. digits] [(e|E) [+-] digits] [ws]`; the empty/blank
  string coerces to `0`, anything else outside the grammar to `NaN`.
  (Hex/binary/octal literals and `Infinity` are outside the model.)
* `new Date(string)` is modelled for the two format families the code can
  feed it: ISO `YYYY-MM-DD` dates and V8's legacy `M/D/Y` slash dates
  (two-digit years `< 50` map to `20YY`, `50..99` to `19YY`).  The runtime
  is assumed to be in the UTC timezone, so slash dates and ISO dates
  normalize to the same calendar day; out-of-range components are invalid.
-/

/-- A JSON-like value as produced by `JSON.parse`: the input domain of the
zod schemas.  `undefined` does not occur in parsed JSON and is modelled as
an absent object key. -/
inductive Json where
  | null : Json
  | bool : Bool → Json
  | num : ℚ → Json
  | str : String → Json
  | arr : List Json → Json
  | obj : List (String × Json) → Json

/-- Key lookup in a JSON object.  Objects coming from `JSON.parse` bind
each key once, so first-hit lookup is exact on that domain. -/
def jsonLookup : List (String × Json) → String → Option Json
  | [], _ => none
  | (k', v) :: rest, k => if k' = k then some v else jsonLookup rest k

/-- Numeric value of a decimal digit character. -/
def charVal (c : Char) : Nat := c.toNat - 48

/-- Value of a string of decimal digits (most significant first). -/
def digitsToNat (cs : List Char) : Nat :=
  cs.foldl (fun a c => a * 10 + charVal c) 0

/-- Exponent part of a JS numeric literal: an optional sign followed by a
nonempty digit string. -/
def parseExpPart (cs : List Char) : Option Int :=
  match cs with
  | '+' :: r => if r ≠ [] ∧ r.all Char.isDigit then some (digitsToNat r) else none
  | '-' :: r => if r ≠ [] ∧ r.all Char.isDigit then some (-(digitsToNat r : Int)) else none
  | r => if r ≠ [] ∧ r.all Char.isDigit then some (digitsToNat r) else none

/-- `Number(string)` on the decimal grammar (see the model notes in the
file header).  `none` is JavaScript `NaN`. -/
def jsStringToNumberL (cs0 : List Char) : Option ℚ :=
  let cs := ((cs0.dropWhile Char.isWhitespace).reverse.dropWhile Char.isWhitespace).reverse
  if cs.isEmpty then some 0
  else
    let sgn : ℚ := match cs with
      | '-' :: _ => -1
      | _ => 1
    let cs1 : List Char := match cs with
      | '-' :: t => t
      | '+' :: t => t
      | _ => cs
    let ip := cs1.takeWhile Char.isDigit
    let r1 := cs1.dropWhile Char.isDigit
    let fp : List Char := match r1 with
      | '.' :: t => t.takeWhile Char.isDigit
      | _ => []
    let r2 : List Char := match r1 with
      | '.' :: t => t.dropWhile Char.isDigit
      | _ => r1
    if ip.isEmpty ∧ fp.isEmpty then none
    else
      let mant : ℚ := (digitsToNat ip : ℚ) + (digitsToNat fp : ℚ) / ((10 : ℚ) ^ fp.length)
      match r2 with
      | [] => some (sgn * mant)
      | e :: rest =>
        if e = 'e' ∨ e = 'E' then
          match parseExpPart rest with
          | some ex => some (sgn * mant * (10 : ℚ) ^ ex)
          | none => none
        else none

/-- `Number(value)` — the JavaScript ToNumber coercion applied by
`z.coerce.number()`.  Single-element arrays coerce through their string
representation, which agrees with coercing the element for the cases
below; multi-element arrays and objects coerce to `NaN`. -/
def jsToNumber : Json → Option ℚ
  | Json.null => some 0
  | Json.bool b => some (if b then 1 else 0)
  | Json.num q => some q
  | Json.str s => jsStringToNumberL s.data
  | Json.arr [] => some 0
  | Json.arr [Json.null] => some 0
  | Json.arr [Json.num q] => some q
  | Json.arr [Json.str s] => jsStringToNumberL s.data
  | Json.arr _ => none
  | Json.obj _ => none

/-- A calendar date, the payload of a successfully parsed `Date`. -/
structure YMD where
  y : Nat
  m : Nat
  d : Nat
deriving DecidableEq, Repr

def isLeap (y : Nat) : Bool :=
  y % 4 = 0 && (y % 100 ≠ 0 || y % 400 = 0)

def daysInMonth (y m : Nat) : Nat :=
  if m = 2 then (if isLeap y then 29 else 28)
  else if m = 4 ∨ m = 6 ∨ m = 9 ∨ m = 11 then 30
  else 31

/-- Calendar validity.  The year bound reflects the 4-digit year formats
the code can produce (`toISOString` output and ≤4-digit slash years);
neither parse path below can yield a larger year. -/
def validYMD (x : YMD) : Bool :=
  1 ≤ x.m && x.m ≤ 12 && 1 ≤ x.d && x.d ≤ daysInMonth x.y x.m && x.y ≤ 9999

/-- Decimal digit character for `n % 10`. -/
def dChar : Nat → Char
  | 0 => '0' | 1 => '1' | 2 => '2' | 3 => '3' | 4 => '4'
  | 5 => '5' | 6 => '6' | 7 => '7' | 8 => '8' | _ => '9'

/-- Four-digit zero-padded decimal rendering (`toISOString` year). -/
def pad4Nat (n : Nat) : List Char :=
  [dChar (n / 1000 % 10), dChar (n / 100 % 10), dChar (n / 10 % 10), dChar (n % 10)]

/-- Two-digit zero-padded decimal rendering (`toISOString` month/day). -/
def pad2Nat (n : Nat) : List Char :=
  [dChar (n / 10 % 10), dChar (n % 10)]

/-- `parsed.toISOString().split('T')[0]` — the `YYYY-MM-DD` rendering of a
date (UTC runtime assumed, see header). -/
def isoFormatL (x : YMD) : List Char :=
  pad4Nat x.y ++ '-' :: (pad2Nat x.m ++ '-' :: pad2Nat x.d)

def isoFormat (x : YMD) : String := String.mk (isoFormatL x)

/-- `new Date(s)` on an ISO `YYYY-MM-DD` string: exactly 4-2-2 digits with
dashes, rejected when the calendar components are out of range. -/
def isoParseL : List Char → Option YMD
  | [c1, c2, c3, c4, h1, c5, c6, h2, c7, c8] =>
    if h1 = '-' ∧ h2 = '-' ∧ (c1.isDigit && c2.isDigit && c3.isDigit && c4.isDigit
        && c5.isDigit && c6.isDigit && c7.isDigit && c8.isDigit) then
      let y := ((charVal c1 * 10 + charVal c2) * 10 + charVal c3) * 10 + charVal c4
      let m := charVal c5 * 10 + charVal c6
      let d := charVal c7 * 10 + charVal c8
      if validYMD ⟨y, m, d⟩ then some ⟨y, m, d⟩ else none
    else none
  | _ => none

/-- `new Date(s)` on V8's legacy `M/D/Y` slash format: 1-2 digit month and
day, 1-4 digit year, two-digit years mapped to `19YY`/`20YY` with the V8
cutoff at 50, sub-50 years to `20YY`; invalid calendar components are
rejected. -/
def slashParseL (cs : List Char) : Option YMD :=
  let mRun := cs.takeWhile Char.isDigit
  let r1 := cs.dropWhile Char.isDigit
  if mRun.length = 0 ∨ mRun.length > 2 then none
  else
    match r1 with
    | '/' :: r2 =>
      let dRun := r2.takeWhile Char.isDigit
      let r3 := r2.dropWhile Char.isDigit
      if dRun.length = 0 ∨ dRun.length > 2 then none
      else
        match r3 with
        | '/' :: r4 =>
          let yRun := r4.takeWhile Char.isDigit
          let r5 := r4.dropWhile Char.isDigit
          if yRun.length = 0 ∨ yRun.length > 4 ∨ r5 ≠ [] then none
          else
            let y0 := digitsToNat yRun
            let y := if y0 < 50 then 2000 + y0 else if y0 < 100 then 1900 + y0 else y0
            let x : YMD := ⟨y, digitsToNat mRun, digitsToNat dRun⟩
            if validYMD x then some x else none
        | _ => none
    | _ => none

/-- `new Date(s)` over the modelled format families (see header): the ISO
shape is tried first, then the legacy slash shape; everything else is an
invalid date. -/
def jsDateParseL (cs : List Char) : Option YMD :=
  match isoParseL cs with
  | some d => some d
  | none => slashParseL cs

/-! ## `schemas.ts` — the lenient zod validator -/

/-- The closed document-type enumeration of `DocumentDataSchema`. -/
inductive DocType where
  | invoice : DocType
  | receipt : DocType
  | bank_statement : DocType
  | other : DocType
deriving DecidableEq, Repr

def typeToString : DocType → String
  | DocType.invoice => "invoice"
  | DocType.receipt => "receipt"
  | DocType.bank_statement => "bank_statement"
  | DocType.other => "other"

/-- A zod validation failure (`ZodError`).  The issue payload is not
inspected by any verified property, so it is not modelled. -/
abbrev ZodError := Unit

/-- `z.enum(['invoice','receipt','bank_statement','other']).default('other').catch('other')`:
a missing field takes the default, any value outside the enumeration
(including `null` and non-strings) is caught and coerced to `'other'`.
This stage can never fail. -/
def parseTypeField (v : Option Json) : DocType :=
  match v with
  | none => DocType.other
  | some (Json.str s) =>
    if s = "invoice" then DocType.invoice
    else if s = "receipt" then DocType.receipt
    else if s = "bank_statement" then DocType.bank_statement
    else DocType.other
  | some _ => DocType.other

/-- `z.string().optional()`: absent passes through, a string passes, any
other value — including `null` — is a `ZodError`. -/
def stringOptional (v : Option Json) : Except ZodError (Option String) :=
  match v with
  | none => Except.ok none
  | some (Json.str s) => Except.ok (some s)
  | some _ => Except.error ()

/-- `z.string().nullish()`: like `.optional()` but `null` also passes
(normalized to absent here, matching the `??` collapses in the
transforms). -/
def stringNullish (v : Option Json) : Except ZodError (Option String) :=
  match v with
  | none => Except.ok none
  | some Json.null => Except.ok none
  | some (Json.str s) => Except.ok (some s)
  | some _ => Except.error ()

/-- `z.coerce.number().nullish()` (root-level `amount`/`total`/`total_amount`):
`null` and absent pass; otherwise the value is coerced with `Number(...)`
and a `NaN` result is rejected by `z.number()` as a `ZodError`. -/
def coerceNumberNullish (v : Option Json) : Except ZodError (Option ℚ) :=
  match v with
  | none => Except.ok none
  | some Json.null => Except.ok none
  | some j =>
    match jsToNumber j with
    | none => Except.error ()
    | some q => Except.ok (some q)

/-- `safeNumber = z.coerce.number().optional().transform(v => v !== undefined && !Number.isNaN(v) ? v : undefined)`.
Note that `null` is NOT passed through (no `.nullable()`): it is coerced
by `Number(null) = 0`.  A `NaN` coercion result is rejected by
`z.number()` with a `ZodError` BEFORE the `.transform` runs, so the
transform's NaN filter is unreachable; the transform is therefore the
identity on the values that reach it. -/
def safeNumber (v : Option Json) : Except ZodError (Option ℚ) :=
  match v with
  | none => Except.ok none
  | some j =>
    match jsToNumber j with
    | none => Except.error ()
    | some q => Except.ok (some q)

/-- JavaScript `a || b` on `string | undefined` values: `a` wins iff it is
defined and non-empty. -/
def jsOr (a b : Option String) : Option String :=
  match a with
  | some s => if s = "" then b else some s
  | none => b

/-- JavaScript `a || dflt` where `dflt` is a (truthy) string literal. -/
def jsOrDefault (a : Option String) (dflt : String) : String :=
  match a with
  | some s => if s = "" then dflt else s
  | none => dflt

/-- JavaScript `a ?? b` where absent stands for `null`/`undefined`. -/
def jsNullish {α : Type} (a b : Option α) : Option α :=
  match a with
  | some x => some x
  | none => b

/-- The normalized line-item record produced by `LineItemSchema`'s
transform. -/
structure LineItem where
  description : String
  quantity : Option ℚ
  unitPrice : Option ℚ
  total : Option ℚ
deriving DecidableEq, Repr

/-- `LineItemSchema.parse`: validate the ten lenient fields, then apply
the alias-priority transform (`description || name || item || 'Unknown item'`,
`quantity ?? qty`, `unitPrice ?? unit_price`, `total ?? price ?? amount`).
Fails (`ZodError`) iff the input is not an object or one of the field
schemas fails. -/
def lineItemParse (j : Json) : Except ZodError LineItem :=
  match j with
  | Json.obj fields =>
    match stringOptional (jsonLookup fields "description"),
        stringOptional (jsonLookup fields "name"),
        stringOptional (jsonLookup fields "item"),
        safeNumber (jsonLookup fields "quantity"),
        safeNumber (jsonLookup fields "qty"),
        safeNumber (jsonLookup fields "unitPrice"),
        safeNumber (jsonLookup fields "unit_price"),
        safeNumber (jsonLookup fields "price"),
        safeNumber (jsonLookup fields "total"),
        safeNumber (jsonLookup fields "amount") with
    | Except.ok description, Except.ok name, Except.ok item, Except.ok quantity,
        Except.ok qty, Except.ok unitPrice, Except.ok unit_price, Except.ok price,
        Except.ok total, Except.ok amount =>
      Except.ok
        { description := jsOrDefault (jsOr description (jsOr name item)) "Unknown item"
          quantity := jsNullish quantity qty
          unitPrice := jsNullish unitPrice unit_price
          total := jsNullish total (jsNullish price amount) }
    | _, _, _, _, _, _, _, _, _, _ => Except.error ()
  | _ => Except.error ()

/-- The regex match `dateStr.match(/^(\d{1,2})\/(\d{1,2})\/(\d{2,4})/)`:
anchored at the start only, returning the three capture groups.  A digit
run longer than the quantifier bound cannot match (the character after
the allowed digits would have to be `/`), and the greedy year group takes
at most four digits with no trailing anchor. -/
def mdyMatchL (cs : List Char) : Option (List Char × List Char × List Char) :=
  let mRun := cs.takeWhile Char.isDigit
  let r1 := cs.dropWhile Char.isDigit
  if mRun.length = 0 ∨ mRun.length > 2 then none
  else
    match r1 with
    | '/' :: r2 =>
      let dRun := r2.takeWhile Char.isDigit
      let r3 := r2.dropWhile Char.isDigit
      if dRun.length = 0 ∨ dRun.length > 2 then none
      else
        match r3 with
        | '/' :: r4 =>
          let yRun := r4.takeWhile Char.isDigit
          if yRun.length < 2 then none
          else some (mRun, dRun, yRun.take 4)
        | _ => none
    | _ => none

/-- `month.padStart(2, '0')` on a 1-2 character digit string. -/
def padStart2 (cs : List Char) : List Char :=
  if cs.length = 1 then '0' :: cs else cs

/-- `normalizeDate` from `schemas.ts`: falsy input (absent, `null`, `""`)
yields absent; otherwise try the generic date parse and render the result
as `YYYY-MM-DD`; on failure try the `M/D/YY[YY]` receipt pattern,
zero-padding and prefixing `20` to two-digit years; if both fail the
normalized date is absent. -/
def normalizeDate (dateStr : Option String) : Option String :=
  match dateStr with
  | none => none
  | some s =>
    if s.data = [] then none
    else
      match jsDateParseL s.data with
      | some d => some (isoFormat d)
      | none =>
        match mdyMatchL s.data with
        | some (m, dd, y) =>
          let fullYear := if y.length = 2 then '2' :: '0' :: y else y
          let candidate := fullYear ++ '-' :: (padStart2 m ++ '-' :: padStart2 dd)
          match jsDateParseL candidate with
          | some d => some (isoFormat d)
          | none => none
        | none => none

/-- The normalized document record produced by `DocumentDataSchema`'s
transform (the `ValidatedDocumentData` shape). -/
structure ValidatedDoc where
  type : DocType
  vendor : Option String
  amount : Option ℚ
  date : Option String
  dateRaw : Option String
  items : Option (List LineItem)
  rawText : Option String
deriving DecidableEq, Repr

/-- `z.array(LineItemSchema)` element-wise validation. -/
def lineItemsParse : List Json → Except ZodError (List LineItem)
  | [] => Except.ok []
  | j :: rest =>
    match lineItemParse j, lineItemsParse rest with
    | Except.ok it, Except.ok its => Except.ok (it :: its)
    | _, _ => Except.error ()

/-- `z.array(LineItemSchema).nullish()` for the `items` field. -/
def itemsNullish (v : Option Json) : Except ZodError (Option (List LineItem)) :=
  match v with
  | none => Except.ok none
  | some Json.null => Except.ok none
  | some (Json.arr xs) =>
    match lineItemsParse xs with
    | Except.ok its => Except.ok (some its)
    | Except.error e => Except.error e
  | some _ => Except.error ()

/-- `DocumentDataSchema.parse`: validate the lenient root fields, then
apply the alias-priority transform
(`vendor ?? store_name ?? merchant ?? business_name`,
`amount ?? total ?? total_amount`, `date := normalizeDate(rawDate)`,
`dateRaw := rawDate`).  Fails (`ZodError`) iff the input is not an object
or one of the field schemas fails; the `type` field can never fail. -/
def documentDataParse (j : Json) : Except ZodError ValidatedDoc :=
  match j with
  | Json.obj fields =>
    match stringNullish (jsonLookup fields "vendor"),
        stringNullish (jsonLookup fields "store_name"),
        stringNullish (jsonLookup fields "merchant"),
        stringNullish (jsonLookup fields "business_name"),
        coerceNumberNullish (jsonLookup fields "amount"),
        coerceNumberNullish (jsonLookup fields "total"),
        coerceNumberNullish (jsonLookup fields "total_amount"),
        stringNullish (jsonLookup fields "date"),
        itemsNullish (jsonLookup fields "items"),
        stringNullish (jsonLookup fields "rawText") with
    | Except.ok vendor, Except.ok store_name, Except.ok merchant, Except.ok business_name,
        Except.ok amount, Except.ok total, Except.ok total_amount, Except.ok date,
        Except.ok items, Except.ok rawText =>
      Except.ok
        { type := parseTypeField (jsonLookup fields "type")
          vendor := jsNullish vendor (jsNullish store_name (jsNullish merchant business_name))
          amount := jsNullish amount (jsNullish total total_amount)
          date := normalizeDate date
          dateRaw := date
          items := items
          rawText := rawText }
    | _, _, _, _, _, _, _, _, _, _ => Except.error ()
  | _ => Except.error ()

/-- A present-or-absent field of a JavaScript object: an `undefined`
value behaves as an absent key for the zod field schemas used here. -/
def optField (k : String) (v : Option Json) : List (String × Json) :=
  match v with
  | none => []
  | some j => [(k, j)]

/-- Re-encoding of a normalized line item as the JSON-like object the
JavaScript runtime would present when the record is fed back to the
schema (absent fields are absent keys). -/
def encodeLineItem (it : LineItem) : Json :=
  Json.obj (("description", Json.str it.description)
    :: (optField "quantity" (it.quantity.map Json.num)
      ++ optField "unitPrice" (it.unitPrice.map Json.num)
      ++ optField "total" (it.total.map Json.num)))

/-- The association list of `encodeValidatedDoc`. -/
def encodeDocFields (r : ValidatedDoc) : List (String × Json) :=
  ("type", Json.str (typeToString r.type))
    :: (optField "vendor" (r.vendor.map Json.str)
      ++ optField "amount" (r.amount.map Json.num)
      ++ optField "date" (r.date.map Json.str)
      ++ optField "dateRaw" (r.dateRaw.map Json.str)
      ++ optField "items" ((r.items.map (fun its => Json.arr (its.map encodeLineItem))))
      ++ optField "rawText" (r.rawText.map Json.str))

/-- Re-encoding of a normalized document record as a JSON-like object
(absent fields are absent keys, `type` as its enum string). -/
def encodeValidatedDoc (r : ValidatedDoc) : Json :=
  Json.obj (encodeDocFields r)

/-! ## `ocr.ts` — parallel OCR with page markers

Each page's `Tesseract.recognize` call either resolves with recognized
text or rejects; the per-page `catch` turns a rejection into empty text.
`Promise.all` preserves input order, so the fan-out is modelled as an
index-aware map over the page outcomes. -/

/-- Outcome of `Tesseract.recognize` on one page: recognized text, or the
promise rejected. -/
inductive OcrPage where
  | ok : String → OcrPage
  | failed : OcrPage

/-- The per-page result: the recognized text, with a rejection caught and
replaced by the empty string. -/
def pageText : OcrPage → String
  | OcrPage.ok t => t
  | OcrPage.failed => ""

/-- `images.map((image, index) => ...)` under `Promise.all`: pair each
page outcome with its 1-based page number, in input order. -/
def ocrResults : List OcrPage → Nat → List (Nat × String)
  | [], _ => []
  | p :: rest, pageNum => (pageNum, pageText p) :: ocrResults rest (pageNum + 1)

/-- `results.filter(r => r.text.trim()).map(r => `--- Page N ---\n` + trimmed)`:
pages whose trimmed text is empty are dropped; the rest become marked
sections in page order. -/
def ocrSections (results : List (Nat × String)) : List String :=
  (results.filter (fun r => !(r.2.trim == ""))).map
    (fun r => "--- Page " ++ toString r.1 ++ " ---\n" ++ r.2.trim)

/-- `ocrImages` from `ocr.ts`: empty input returns `""`; otherwise the
marked nonempty sections are joined with blank lines.  (The outer batch
`catch` guards only the logging helpers and is unreachable in this
model.) -/
def ocrImages (images : List OcrPage) : String :=
  if images.isEmpty then ""
  else String.intercalate "\n\n" (ocrSections (ocrResults images 1))

/-! ## `providers/ollama.ts` — `extractWithOllama` retry control flow

One outbound `fetch` to the daemon is modelled by a `DaemonReply`:
either the fetch rejects (network error), or the daemon answers with a
status and a body.  `JSON.parse` of the reassembled response text
(including the brace-substring fallback) is a runtime primitive; it is
modelled by the reply carrying `some` parsed `Json` value or `none` when
the text is unrecoverable.  The surrounding OCR/rasterization stage and
the `id`/`filename`/`extractedAt` stamping are outside the verified
properties and not modelled. -/

/-- What the daemon does for one outbound request. -/
inductive DaemonReply where
  | unreachable : DaemonReply
  | reply : Nat → Option Json → DaemonReply

/-- The error classes `extractWithOllama` can throw: a rejected `fetch`,
a non-2xx daemon response, an unparseable model response, and a zod
validation failure (`z.ZodError` — the only retried class). -/
inductive ExtractErr where
  | network : ExtractErr
  | apiError : Nat → ExtractErr
  | parseError : ExtractErr
  | zodError : ExtractErr
deriving DecidableEq, Repr

/-- One attempt of the local-daemon call body: propagate a fetch
rejection; throw `Ollama API error` on a non-2xx status (`!response.ok`);
throw a parse error when no JSON can be recovered from the response text;
otherwise validate with `DocumentDataSchema.parse`. -/
def attemptOllama (r : DaemonReply) : Except ExtractErr ValidatedDoc :=
  match r with
  | DaemonReply.unreachable => Except.error ExtractErr.network
  | DaemonReply.reply status payload =>
    if 200 ≤ status ∧ status ≤ 299 then
      match payload with
      | none => Except.error ExtractErr.parseError
      | some j =>
        match documentDataParse j with
        | Except.error _ => Except.error ExtractErr.zodError
        | Except.ok v => Except.ok v
    else Except.error (ExtractErr.apiError status)

/-- `extractWithOllama (filePath, base64, config, retryCount, onStream)`:
the catch block retries the whole call exactly when `retryCount === 0`
and the error is a `z.ZodError`, passing `retryCount = 1` and
`onStream = undefined`; every other error rethrows.  `replies` lists the
daemon's behavior for successive outbound requests; `streaming` is
`!!onStream`.  Returns the outcome together with the `stream` flag of
each outbound request made, in order. -/
def extractWithOllama (replies : List DaemonReply) (retryCount : Nat) (streaming : Bool) :
    Except ExtractErr ValidatedDoc × List Bool :=
  match replies with
  | [] => (Except.error ExtractErr.network, [streaming])
  | r :: rest =>
    match attemptOllama r with
    | Except.ok v => (Except.ok v, [streaming])
    | Except.error e =>
      if retryCount = 0 ∧ e = ExtractErr.zodError then
        let next := extractWithOllama rest 1 false
        (next.1, streaming :: next.2)
      else (Except.error e, [streaming])

/-- Claim-side predicate (C1): the `type` field of the input object is
missing, `null`, a non-string, or a string outside the enumeration. -/
def typeFieldUnrecognized (v : Option Json) : Bool :=
  match v with
  | none => true
  | some (Json.str s) =>
    !(s == "invoice") && !(s == "receipt") && !(s == "bank_statement") && !(s == "other")
  | some _ => true

/-! ## Helper lemmas -/

/-- Inversion for a successful `DocumentDataSchema.parse` on an object:
every root field schema succeeded, and the result is the transform of the
field values. -/
theorem documentDataParse_ok (fields : List (String × Json)) (r : ValidatedDoc)
    (h : documentDataParse (Json.obj fields) = Except.ok r) :
    ∃ vendor store_name merchant business_name amount total total_amount date items rawText,
      stringNullish (jsonLookup fields "vendor") = Except.ok vendor ∧
      stringNullish (jsonLookup fields "store_name") = Except.ok store_name ∧
      stringNullish (jsonLookup fields "merchant") = Except.ok merchant ∧
      stringNullish (jsonLookup fields "business_name") = Except.ok business_name ∧
      coerceNumberNullish (jsonLookup fields "amount") = Except.ok amount ∧
      coerceNumberNullish (jsonLookup fields "total") = Except.ok total ∧
      coerceNumberNullish (jsonLookup fields "total_amount") = Except.ok total_amount ∧
      stringNullish (jsonLookup fields "date") = Except.ok date ∧
      itemsNullish (jsonLookup fields "items") = Except.ok items ∧
      stringNullish (jsonLookup fields "rawText") = Except.ok rawText ∧
      r = { type := parseTypeField (jsonLookup fields "type")
            vendor := jsNullish vendor (jsNullish store_name (jsNullish merchant business_name))
            amount := jsNullish amount (jsNullish total total_amount)
            date := normalizeDate date
            dateRaw := date
            items := items
            rawText := rawText } := by
  unfold documentDataParse at h
  split at h
  case h_2 x => exact absurd rfl (x fields)
  case h_1 j fields2 heq =>
    injection heq with heq2
    subst heq2
    split at h
    case h_2 => exact absurd h (by simp)
    case h_1 vendor store_name merchant business_name amount total total_amount date
        items rawText hv hs hm hb ha ht hta hd hi hr =>
      exact ⟨vendor, store_name, merchant, business_name, amount, total, total_amount,
        date, items, rawText, hv, hs, hm, hb, ha, ht, hta, hd, hi, hr,
        ((Except.ok.injEq _ _).mp h).symm⟩

/-- Inversion for a successful `LineItemSchema.parse` on an object. -/
theorem lineItemParse_ok (fields : List (String × Json)) (it : LineItem)
    (h : lineItemParse (Json.obj fields) = Except.ok it) :
    ∃ description name item quantity qty unitPrice unit_price price total amount,
      stringOptional (jsonLookup fields "description") = Except.ok description ∧
      stringOptional (jsonLookup fields "name") = Except.ok name ∧
      stringOptional (jsonLookup fields "item") = Except.ok item ∧
      safeNumber (jsonLookup fields "quantity") = Except.ok quantity ∧
      safeNumber (jsonLookup fields "qty") = Except.ok qty ∧
      safeNumber (jsonLookup fields "unitPrice") = Except.ok unitPrice ∧
      safeNumber (jsonLookup fields "unit_price") = Except.ok unit_price ∧
      safeNumber (jsonLookup fields "price") = Except.ok price ∧
      safeNumber (jsonLookup fields "total") = Except.ok total ∧
      safeNumber (jsonLookup fields "amount") = Except.ok amount ∧
      it = { description := jsOrDefault (jsOr description (jsOr name item)) "Unknown item"
             quantity := jsNullish quantity qty
             unitPrice := jsNullish unitPrice unit_price
             total := jsNullish total (jsNullish price amount) } := by
  unfold lineItemParse at h
  split at h
  case h_2 x => exact absurd rfl (x fields)
  case h_1 j fields2 heq =>
    injection heq with heq2
    subst heq2
    split at h
    case h_2 => exact absurd h (by simp)
    case h_1 description name item quantity qty unitPrice unit_price price total amount
        h1 h2 h3 h4 h5 h6 h7 h8 h9 h10 =>
      exact ⟨description, name, item, quantity, qty, unitPrice, unit_price, price, total,
        amount, h1, h2, h3, h4, h5, h6, h7, h8, h9, h10,
        ((Except.ok.injEq _ _).mp h).symm⟩

/-- An unrecognized/missing/null `type` field parses to `other`: both the
`.default('other')` arm (missing) and the `.catch('other')` arm
(enum failure) land there. -/
theorem parseTypeField_unrecognized (v : Option Json)
    (h : typeFieldUnrecognized v = true) : parseTypeField v = DocType.other := by
  match v with
  | none => rfl
  | some Json.null => rfl
  | some (Json.bool b) => rfl
  | some (Json.num q) => rfl
  | some (Json.arr xs) => rfl
  | some (Json.obj fs) => rfl
  | some (Json.str s) =>
    simp only [typeFieldUnrecognized, Bool.and_eq_true, Bool.not_eq_true', beq_eq_false_iff_ne,
      ne_eq] at h
    obtain ⟨⟨⟨h1, h2⟩, h3⟩, h4⟩ := h
    simp only [parseTypeField, if_neg h1, if_neg h2, if_neg h3]

/-! ## C1 — `type` is always one of the four enum values -/

/-- C1: for every input accepted by `DocumentDataSchema`, the output
`type` is one of the four enum values, and a missing, `null`, or
unrecognized input `type` yields `other`. -/
theorem claim_C1 (j : Json) (r : ValidatedDoc) (h : documentDataParse j = Except.ok r) :
    (r.type = DocType.invoice ∨ r.type = DocType.receipt ∨ r.type = DocType.bank_statement ∨
      r.type = DocType.other) ∧
    (∀ fields, j = Json.obj fields →
      typeFieldUnrecognized (jsonLookup fields "type") = true → r.type = DocType.other) := by
  constructor
  · cases htype : r.type
    · exact Or.inl rfl
    · exact Or.inr (Or.inl rfl)
    · exact Or.inr (Or.inr (Or.inl rfl))
    · exact Or.inr (Or.inr (Or.inr rfl))
  · intro fields hj hun
    subst hj
    obtain ⟨v, sn, mc, bn, a, t, ta, d, i, rt, _, _, _, _, _, _, _, _, _, _, hr⟩ :=
      documentDataParse_ok fields r h
    rw [hr]
    exact parseTypeField_unrecognized _ hun

/-- C1 witness: the input `{type: "banana"}` is accepted and the output
`type` is `other`. -/
theorem claim_C1_witness :
    ({ type := DocType.other, vendor := none, amount := none, date := none,
       dateRaw := none, items := none, rawText := none } : ValidatedDoc).type
      = DocType.other := by
  have h := claim_C1 (Json.obj [("type", Json.str "banana")])
    { type := DocType.other, vendor := none, amount := none, date := none,
      dateRaw := none, items := none, rawText := none } (by rfl)
  exact h.2 [("type", Json.str "banana")] rfl (by decide)

/-! ## C10 — `dateRaw` preserves the input date string exactly -/

/-- C10: whenever validation succeeds and the input `date` field is a
string, the output `dateRaw` is exactly that string; when the input
`date` is missing or `null`, `dateRaw` is absent. -/
theorem claim_C10 (fields : List (String × Json)) (r : ValidatedDoc)
    (h : documentDataParse (Json.obj fields) = Except.ok r) :
    (∀ s, jsonLookup fields "date" = some (Json.str s) → r.dateRaw = some s) ∧
    ((jsonLookup fields "date" = none ∨ jsonLookup fields "date" = some Json.null) →
      r.dateRaw = none) := by
  obtain ⟨v, sn, mc, bn, a, t, ta, d, i, rt, _, _, _, _, _, _, _, hd, _, _, hr⟩ :=
    documentDataParse_ok fields r h
  constructor
  · intro s hs
    rw [hs] at hd
    simp only [stringNullish, Except.ok.injEq] at hd
    rw [hr]
    exact hd.symm
  · intro hcase
    rcases hcase with hnone | hnull
    · rw [hnone] at hd
      simp only [stringNullish, Except.ok.injEq] at hd
      rw [hr]
      exact hd.symm
    · rw [hnull] at hd
      simp only [stringNullish, Except.ok.injEq] at hd
      rw [hr]
      exact hd.symm

/-- C10 witness: the input `{date: "3/5/2099"}` is accepted with
`dateRaw = "3/5/2099"`. -/
theorem claim_C10_witness :
    ({ type := DocType.other, vendor := none, amount := none, date := some "2099-03-05",
       dateRaw := some "3/5/2099", items := none, rawText := none } : ValidatedDoc).dateRaw
      = some "3/5/2099" := by
  have h := claim_C10 [("date", Json.str "3/5/2099")]
    { type := DocType.other, vendor := none, amount := none, date := some "2099-03-05",
      dateRaw := some "3/5/2099", items := none, rawText := none } (by rfl)
  exact h.1 "3/5/2099" rfl

/-! ## C7 — line-item alias priorities -/

/-- C7: for every accepted line item, `total` beats `price` when both are
present; a lone `price` (or a lone `amount`) becomes the normalized
`total`; and when `description`, `name` and `item` are all absent the
normalized `description` is `"Unknown item"`. -/
theorem claim_C7 (fields : List (String × Json)) (it : LineItem)
    (h : lineItemParse (Json.obj fields) = Except.ok it) :
    (∀ a b, jsonLookup fields "total" = some (Json.num a) →
      jsonLookup fields "price" = some (Json.num b) → it.total = some a) ∧
    (∀ b, jsonLookup fields "total" = none → jsonLookup fields "price" = some (Json.num b) →
      jsonLookup fields "amount" = none → it.total = some b) ∧
    (∀ c, jsonLookup fields "total" = none → jsonLookup fields "price" = none →
      jsonLookup fields "amount" = some (Json.num c) → it.total = some c) ∧
    (jsonLookup fields "description" = none → jsonLookup fields "name" = none →
      jsonLookup fields "item" = none → it.description = "Unknown item") := by
  obtain ⟨de, na, im, qu, qt, up, upr, pr, to', am, hde, hna, him, _, _, _, _, hpr, hto, ham, hit⟩ :=
    lineItemParse_ok fields it h
  refine ⟨?_, ?_, ?_, ?_⟩
  · intro a b hta hpb
    rw [hta] at hto
    simp only [safeNumber, jsToNumber, Except.ok.injEq] at hto
    rw [hit, hto.symm]
    rfl
  · intro b htn hpb han
    rw [htn] at hto
    rw [hpb] at hpr
    simp only [safeNumber, jsToNumber, Except.ok.injEq] at hto hpr
    rw [hit, hto.symm, hpr.symm]
    rfl
  · intro c htn hpn hac
    rw [htn] at hto
    rw [hpn] at hpr
    rw [hac] at ham
    simp only [safeNumber, jsToNumber, Except.ok.injEq] at hto hpr ham
    rw [hit, hto.symm, hpr.symm, ham.symm]
    rfl
  · intro hdn hnn hin
    rw [hdn] at hde
    rw [hnn] at hna
    rw [hin] at him
    simp only [stringOptional, Except.ok.injEq] at hde hna him
    rw [hit, hde.symm, hna.symm, him.symm]
    rfl

/-- C7 witness: the input `{total: 10, price: 5}` is accepted with
normalized `total = 10` and default description `"Unknown item"`. -/
theorem claim_C7_witness :
    ({ description := "Unknown item", quantity := none, unitPrice := none,
       total := some 10 } : LineItem).total = some 10 ∧
    ({ description := "Unknown item", quantity := none, unitPrice := none,
       total := some 10 } : LineItem).description = "Unknown item" := by
  have h := claim_C7 [("total", Json.num 10), ("price", Json.num 5)]
    { description := "Unknown item", quantity := none, unitPrice := none, total := some 10 }
    (by rfl)
  exact ⟨h.1 10 5 rfl rfl, h.2.2.2 rfl rfl rfl⟩

/-! ## C3 — numeric coercion: the NaN filter is dead code -/

/-- C3 (code-bug evidence): a numeric-like string coerces to the
equivalent number, but a non-numeric string makes the schema THROW a
`ZodError` instead of normalizing the field to absent: `z.coerce.number()`
rejects the `NaN` coercion result before `safeNumber`'s `.transform` NaN
filter can run (the filter is unreachable), and the root `amount` field
has no filter at all. -/
theorem claim_C3_eval :
    lineItemParse (Json.obj [("quantity", Json.str "22.40")]) =
      Except.ok { description := "Unknown item", quantity := some (112 / 5 : ℚ),
                  unitPrice := none, total := none } ∧
    documentDataParse (Json.obj [("amount", Json.str "22.40")]) =
      Except.ok { type := DocType.other, vendor := none, amount := some (112 / 5 : ℚ),
                  date := none, dateRaw := none, items := none, rawText := none } ∧
    lineItemParse (Json.obj [("quantity", Json.str "abc")]) = Except.error () ∧
    documentDataParse (Json.obj [("amount", Json.str "abc")]) = Except.error () := by
  refine ⟨?_, ?_, ?_, ?_⟩ <;> with_unfolding_all rfl

/-! ## C8 — date normalization scenarios -/

/-- C8: `"3/5/24"` normalizes to `"2024-03-05"`, and `"not-a-date"`
normalizes to an absent date with `dateRaw` preserving the original
string. -/
theorem claim_C8 :
    normalizeDate (some "3/5/24") = some "2024-03-05" ∧
    documentDataParse (Json.obj [("date", Json.str "not-a-date")]) =
      Except.ok { type := DocType.other, vendor := none, amount := none, date := none,
                  dateRaw := some "not-a-date", items := none, rawText := none } := by
  exact ⟨rfl, rfl⟩

/-! ## C2 — validation is pure but not total-as-success -/

/-- C2 counterexample: the wrong-field-type input `{vendor: 42}` — squarely
inside the claim's "arbitrary JSON-like input (wrong field types)" — makes
`DocumentDataSchema.parse` raise a `ZodError` rather than return a
normalized record. -/
theorem claim_C2_counterexample :
    documentDataParse (Json.obj [("vendor", Json.num 42)]) = Except.error () := by
  rfl

theorem stringNullish_ifnull (p : Prop) [Decidable p] :
    stringNullish (if p then some Json.null else none) = Except.ok none := by
  split <;> rfl

theorem coerceNumberNullish_ifnull (p : Prop) [Decidable p] :
    coerceNumberNullish (if p then some Json.null else none) = Except.ok none := by
  split <;> rfl

theorem itemsNullish_ifnull (p : Prop) [Decidable p] :
    itemsNullish (if p then some Json.null else none) = Except.ok none := by
  split <;> rfl

theorem parseTypeField_ifnull (p : Prop) [Decidable p] :
    parseTypeField (if p then some Json.null else none) = DocType.other := by
  split <;> rfl

/-- C2 (amended): validation is a pure total function into
record-or-`ZodError`; it never raises on account of the `type` field
(any value there is accepted) and never raises for a `null` value under
any root key (known keys are `.nullish()`, unknown keys are stripped) —
but it is not total-as-success over arbitrary JSON-like input (see the
counterexample). -/
theorem claim_C2_amended :
    (∀ v : Json, ∃ r, documentDataParse (Json.obj [("type", v)]) = Except.ok r) ∧
    (∀ key : String, ∃ r, documentDataParse (Json.obj [(key, Json.null)]) = Except.ok r) := by
  constructor
  · intro v
    exact ⟨_, rfl⟩
  · intro key
    have hl : ∀ f : String, jsonLookup [(key, Json.null)] f
        = if key = f then some Json.null else none := by
      intro f
      simp [jsonLookup]
    refine ⟨{ type := DocType.other, vendor := none, amount := none, date := none,
              dateRaw := none, items := none, rawText := none }, ?_⟩
    simp only [documentDataParse, hl, stringNullish_ifnull, coerceNumberNullish_ifnull,
      itemsNullish_ifnull, parseTypeField_ifnull]
    rfl

/-! ## C9 — OCR page markers, ordering, and failure tolerance -/

/-- A page whose recognition rejects contributes the same results as a
page whose recognized text is empty, at every position. -/
theorem ocrResults_failed_congr (pre post : List OcrPage) (n : Nat) :
    ocrResults (pre ++ OcrPage.failed :: post) n
      = ocrResults (pre ++ OcrPage.ok "" :: post) n := by
  induction pre generalizing n with
  | nil => rfl
  | cons p rest ih =>
    simp only [List.cons_append, ocrResults]
    exact congrArg (List.cons (n, pageText p)) (ih (n + 1))

/-- C9: the empty batch yields `""` with no error; a page whose
recognition throws contributes empty text (hence no section), exactly as
if it had recognized nothing; and pages with non-whitespace text appear
in original order under their original page-number markers — in
particular a 2-page batch whose second page throws returns only page 1's
marked text, and a fully successful batch lists every page in order. -/
theorem claim_C9 :
    ocrImages [] = "" ∧
    (∀ pre post, ocrImages (pre ++ OcrPage.failed :: post)
        = ocrImages (pre ++ OcrPage.ok "" :: post)) ∧
    ocrImages [OcrPage.ok "Page one text", OcrPage.failed] = "--- Page 1 ---\nPage one text" ∧
    ocrImages [OcrPage.ok "Alpha", OcrPage.failed, OcrPage.ok "Beta"]
      = "--- Page 1 ---\nAlpha\n\n--- Page 3 ---\nBeta" ∧
    ocrImages [OcrPage.ok "Alpha", OcrPage.ok "Beta"]
      = "--- Page 1 ---\nAlpha\n\n--- Page 2 ---\nBeta" := by
  refine ⟨rfl, ?_, by with_unfolding_all rfl, by with_unfolding_all rfl,
    by with_unfolding_all rfl⟩
  intro pre post
  have hne : ∀ x : OcrPage, (pre ++ x :: post).isEmpty = false := by
    intro x
    cases pre <;> rfl
  unfold ocrImages
  rw [hne, hne, ocrResults_failed_congr]

/-! ## C4 — retry exactly once, only on validation failure -/

/-- On the retry attempt (`retryCount = 1`) the catch block never
recurses: the call's outcome is the attempt's outcome, with one outbound
request. -/
theorem extractWithOllama_retry1 (r : DaemonReply) (rest : List DaemonReply) (s : Bool) :
    extractWithOllama (r :: rest) 1 s = (attemptOllama r, [s]) := by
  unfold extractWithOllama
  cases h : attemptOllama r <;> simp [h]

/-- C4: a first-attempt `ZodError` causes exactly one retry of the whole
call with streaming disabled (`onStream = undefined`), whose outcome —
including a second validation failure — is returned as is; every other
error class propagates immediately with no second outbound request. -/
theorem claim_C4 (r1 r2 : DaemonReply) (rest : List DaemonReply) (s : Bool) :
    (attemptOllama r1 = Except.error ExtractErr.zodError →
      extractWithOllama (r1 :: r2 :: rest) 0 s = (attemptOllama r2, [s, false])) ∧
    (∀ e, e ≠ ExtractErr.zodError → attemptOllama r1 = Except.error e →
      extractWithOllama (r1 :: r2 :: rest) 0 s = (Except.error e, [s])) := by
  constructor
  · intro h1
    unfold extractWithOllama
    rw [h1, extractWithOllama_retry1]
    simp
  · intro e he h1
    unfold extractWithOllama
    rw [h1]
    simp [he]

/-- C4 witness: a first reply whose payload fails validation (a
non-object) retries once without streaming and returns the second
attempt's outcome; an unreachable daemon propagates with a single
request. -/
theorem claim_C4_witness :
    extractWithOllama [DaemonReply.reply 200 (some (Json.str "x")),
        DaemonReply.reply 200 (some (Json.obj []))] 0 true
      = (attemptOllama (DaemonReply.reply 200 (some (Json.obj []))), [true, false]) ∧
    extractWithOllama [DaemonReply.unreachable, DaemonReply.reply 200 (some (Json.obj []))] 0 true
      = (Except.error ExtractErr.network, [true]) := by
  constructor
  · exact (claim_C4 (DaemonReply.reply 200 (some (Json.str "x")))
      (DaemonReply.reply 200 (some (Json.obj []))) [] true).1 (by rfl)
  · exact (claim_C4 DaemonReply.unreachable
      (DaemonReply.reply 200 (some (Json.obj []))) [] true).2 ExtractErr.network
      (by decide) (by rfl)

/-! ## C5 — an invalid `type` does NOT trigger the retry -/

/-- C5 counterexample: with a first response that is well-formed JSON
whose `type` is invalid (`"banana"`) and a second, valid response, the
code makes exactly ONE outbound request and returns the FIRST response's
result with `type` coerced to `other` — not two requests with the second
result: `.catch('other')` absorbs the invalid enum value, so no
`ZodError` is thrown and no retry happens. -/
theorem claim_C5_counterexample :
    extractWithOllama
        [DaemonReply.reply 200 (some (Json.obj [("type", Json.str "banana")])),
         DaemonReply.reply 200 (some (Json.obj [("type", Json.str "receipt")]))] 0 true
      = (Except.ok { type := DocType.other, vendor := none, amount := none, date := none,
                     dateRaw := none, items := none, rawText := none }, [true]) := by
  rfl

/-- C5 (amended): two outbound requests with the second (valid) result
returned happen exactly for a genuine schema-validation failure on the
first response (e.g. a non-object payload), not for an invalid `type`
value; the retry runs with streaming disabled. -/
theorem claim_C5_amended (r1 : DaemonReply) (j2 : Json) (v : ValidatedDoc)
    (rest : List DaemonReply) (s : Bool)
    (h1 : attemptOllama r1 = Except.error ExtractErr.zodError)
    (h2 : documentDataParse j2 = Except.ok v) :
    extractWithOllama (r1 :: DaemonReply.reply 200 (some j2) :: rest) 0 s
      = (Except.ok v, [s, false]) := by
  unfold extractWithOllama
  rw [h1, extractWithOllama_retry1]
  simp [attemptOllama, h2]

/-- C5 witness: a first payload that fails validation (a bare number)
followed by a valid `{type: "receipt"}` payload yields two requests —
the second without streaming — and the second result. -/
theorem claim_C5_witness :
    extractWithOllama [DaemonReply.reply 200 (some (Json.num 7)),
        DaemonReply.reply 200 (some (Json.obj [("type", Json.str "receipt")]))] 0 true
      = (Except.ok { type := DocType.receipt, vendor := none, amount := none, date := none,
                     dateRaw := none, items := none, rawText := none }, [true, false]) := by
  exact claim_C5_amended (DaemonReply.reply 200 (some (Json.num 7)))
    (Json.obj [("type", Json.str "receipt")])
    { type := DocType.receipt, vendor := none, amount := none, date := none,
      dateRaw := none, items := none, rawText := none } [] true (by rfl) (by rfl)

/-! ## Date-normalization lemmas (for C6) -/

theorem isoParseL_valid (cs : List Char) (x : YMD) (h : isoParseL cs = some x) :
    validYMD x = true := by
  unfold isoParseL at h
  simp only [] at h
  repeat' split at h
  all_goals cases h
  all_goals assumption

theorem slashParseL_valid (cs : List Char) (x : YMD) (h : slashParseL cs = some x) :
    validYMD x = true := by
  unfold slashParseL at h
  simp only [] at h
  repeat' split at h
  all_goals cases h
  all_goals assumption

theorem jsDateParseL_valid (cs : List Char) (x : YMD) (h : jsDateParseL cs = some x) :
    validYMD x = true := by
  unfold jsDateParseL at h
  cases hiso : isoParseL cs with
  | some d =>
    rw [hiso] at h
    obtain rfl := (Option.some.injEq _ _).mp h
    exact isoParseL_valid cs d hiso
  | none =>
    rw [hiso] at h
    exact slashParseL_valid cs x h

theorem charVal_dChar (k : Nat) (h : k < 10) : charVal (dChar k) = k := by
  interval_cases k <;> rfl

theorem charVal_dChar_mod (k : Nat) : charVal (dChar (k % 10)) = k % 10 :=
  charVal_dChar _ (Nat.mod_lt _ (by omega))

theorem isDigit_dChar (k : Nat) : (dChar k).isDigit = true := by
  unfold dChar
  split <;> rfl

theorem daysInMonth_le (y m : Nat) : daysInMonth y m ≤ 31 := by
  unfold daysInMonth
  split
  · split <;> omega
  · split <;> omega

theorem jsDateParseL_isoFormat (x : YMD) (h : validYMD x = true) :
    jsDateParseL (isoFormatL x) = some x := by
  obtain ⟨y, m, d⟩ := x
  have h' := h
  simp only [validYMD, Bool.and_eq_true, decide_eq_true_eq] at h'
  obtain ⟨⟨⟨⟨hm1, hm2⟩, hd1⟩, hd2⟩, hy⟩ := h'
  have hd31 : d ≤ 31 := le_trans hd2 (daysInMonth_le y m)
  have hfmt : isoFormatL ⟨y, m, d⟩ =
      [dChar (y / 1000 % 10), dChar (y / 100 % 10), dChar (y / 10 % 10), dChar (y % 10), '-',
       dChar (m / 10 % 10), dChar (m % 10), '-', dChar (d / 10 % 10), dChar (d % 10)] := rfl
  rw [hfmt]
  unfold jsDateParseL isoParseL
  simp only [isDigit_dChar, Bool.and_self, and_true, if_pos, charVal_dChar_mod]
  have ey : ((y / 1000 % 10 * 10 + y / 100 % 10) * 10 + y / 10 % 10) * 10 + y % 10 = y := by
    omega
  have em : m / 10 % 10 * 10 + m % 10 = m := by omega
  have ed : d / 10 % 10 * 10 + d % 10 = d := by omega
  rw [ey, em, ed, h]
  rfl

theorem isoFormatL_ne_nil (x : YMD) : isoFormatL x ≠ [] := by
  simp [isoFormatL, pad4Nat]

theorem normalizeDate_isoFormat (x : YMD) (h : validYMD x = true) :
    normalizeDate (some (isoFormat x)) = some (isoFormat x) := by
  have hdata : (isoFormat x).data = isoFormatL x := rfl
  simp only [normalizeDate, hdata, if_neg (isoFormatL_ne_nil x), jsDateParseL_isoFormat x h]

theorem normalizeDate_some (s : String) (t : String)
    (h : normalizeDate (some s) = some t) :
    ∃ x, validYMD x = true ∧ t = isoFormat x := by
  simp only [normalizeDate] at h
  split at h
  · exact absurd h (by simp)
  · cases hp : jsDateParseL s.data with
    | some d =>
      rw [hp] at h
      obtain rfl := (Option.some.injEq _ _).mp h
      exact ⟨d, jsDateParseL_valid _ _ hp, rfl⟩
    | none =>
      rw [hp] at h
      cases hm : mdyMatchL s.data with
      | none =>
        rw [hm] at h
        exact absurd h (by simp)
      | some g =>
        rw [hm] at h
        obtain ⟨mg, dg, yg⟩ := g
        simp only [] at h
        cases hc : jsDateParseL ((if yg.length = 2 then '2' :: '0' :: yg else yg)
            ++ '-' :: (padStart2 mg ++ '-' :: padStart2 dg)) with
        | none =>
          rw [hc] at h
          exact absurd h (by simp)
        | some d =>
          rw [hc] at h
          obtain rfl := (Option.some.injEq _ _).mp h
          exact ⟨d, jsDateParseL_valid _ _ hc, rfl⟩

theorem normalizeDate_idem (o : Option String) :
    normalizeDate (normalizeDate o) = normalizeDate o := by
  cases ho : normalizeDate o with
  | none => rfl
  | some t =>
    cases o with
    | none => exact absurd ho (by simp [normalizeDate])
    | some s =>
      obtain ⟨x, hv, rfl⟩ := normalizeDate_some s t ho
      exact normalizeDate_isoFormat x hv

/-! ## C6 — validation is NOT a fixed point on `dateRaw` -/

theorem jsOrDefault_ne (a : Option String) (dflt : String) (h : dflt ≠ "") :
    jsOrDefault a dflt ≠ "" := by
  cases a with
  | none => simp [jsOrDefault, h]
  | some s =>
    by_cases hs : s = ""
    · simp [jsOrDefault, hs, h]
    · simp [jsOrDefault, hs]

theorem lineItemParse_desc_ne (j : Json) (it : LineItem)
    (h : lineItemParse j = Except.ok it) : it.description ≠ "" := by
  cases j with
  | obj fields =>
    obtain ⟨de, na, im, qu, qt, up, upr, pr, to', am, _, _, _, _, _, _, _, _, _, _, hit⟩ :=
      lineItemParse_ok fields it h
    rw [hit]
    exact jsOrDefault_ne _ _ (by decide)
  | null => exact absurd h (by simp [lineItemParse])
  | bool b => exact absurd h (by simp [lineItemParse])
  | num q => exact absurd h (by simp [lineItemParse])
  | str s => exact absurd h (by simp [lineItemParse])
  | arr xs => exact absurd h (by simp [lineItemParse])

theorem lineItemsParse_desc_ne (xs : List Json) (its : List LineItem)
    (h : lineItemsParse xs = Except.ok its) :
    ∀ it ∈ its, it.description ≠ "" := by
  induction xs generalizing its with
  | nil =>
    obtain rfl : ([] : List LineItem) = its := by
      simpa [lineItemsParse] using h
    intro it hit
    exact absurd hit (by simp)
  | cons j rest ih =>
    unfold lineItemsParse at h
    split at h
    · rename_i it0 its0 h1 h2
      obtain rfl := (Except.ok.injEq _ _).mp h
      intro it hit
      rcases List.mem_cons.mp hit with rfl | hmem
      · exact lineItemParse_desc_ne j it h1
      · exact ih its0 h2 it hmem
    · exact absurd h (by simp)

theorem stringNullish_mapStr (o : Option String) :
    stringNullish (o.map Json.str) = Except.ok o := by
  cases o <;> rfl

theorem coerceNumberNullish_mapNum (o : Option ℚ) :
    coerceNumberNullish (o.map Json.num) = Except.ok o := by
  cases o <;> rfl

theorem safeNumber_mapNum (o : Option ℚ) :
    safeNumber (o.map Json.num) = Except.ok o := by
  cases o <;> rfl

theorem parseTypeField_typeToString (t : DocType) :
    parseTypeField (some (Json.str (typeToString t))) = t := by
  cases t <;> rfl

theorem jsNullish_none_right {α : Type} (o : Option α) : jsNullish o none = o := by
  cases o <;> rfl

theorem jsonLookup_optField_ne (k k' : String) (v : Option Json)
    (rest : List (String × Json)) (h : ¬ k = k') :
    jsonLookup (optField k v ++ rest) k' = jsonLookup rest k' := by
  cases v <;> simp [optField, jsonLookup, h]

theorem jsonLookup_optField_some (k : String) (j : Json) (rest : List (String × Json)) :
    jsonLookup (optField k (some j) ++ rest) k = some j := by
  simp [optField, jsonLookup]

theorem encodeLineItem_roundtrip (it : LineItem) (h : it.description ≠ "") :
    lineItemParse (encodeLineItem it) = Except.ok it := by
  obtain ⟨de, qu, up, to'⟩ := it
  simp only [LineItem.description] at h
  cases qu <;> cases up <;> cases to' <;>
    simp [encodeLineItem, optField, lineItemParse, jsonLookup, stringOptional, safeNumber,
      jsToNumber, jsOr, jsOrDefault, jsNullish, h]

theorem lineItemsParse_encode (its : List LineItem)
    (h : ∀ it ∈ its, it.description ≠ "") :
    lineItemsParse (its.map encodeLineItem) = Except.ok its := by
  induction its with
  | nil => rfl
  | cons it rest ih =>
    have h1 : lineItemParse (encodeLineItem it) = Except.ok it :=
      encodeLineItem_roundtrip it (h it (by simp))
    have h2 : lineItemsParse (rest.map encodeLineItem) = Except.ok rest :=
      ih (fun x hx => h x (by simp [hx]))
    simp [lineItemsParse, h1, h2]

theorem optField_none (k : String) : optField k none = [] := rfl

theorem jsonLookup_optField_ne_nil (k k' : String) (v : Option Json) (h : ¬ k = k') :
    jsonLookup (optField k v) k' = none := by
  cases v <;> simp [optField, jsonLookup, h]

theorem encLookup_type (r : ValidatedDoc) :
    jsonLookup (encodeDocFields r) "type" = some (Json.str (typeToString r.type)) := by
  simp [encodeDocFields, jsonLookup]

theorem encLookup_vendor (r : ValidatedDoc) :
    jsonLookup (encodeDocFields r) "vendor" = r.vendor.map Json.str := by
  unfold encodeDocFields
  cases hv : r.vendor <;>
    simp [jsonLookup, optField_none, jsonLookup_optField_ne, jsonLookup_optField_some,
      jsonLookup_optField_ne_nil]

theorem encLookup_amount (r : ValidatedDoc) :
    jsonLookup (encodeDocFields r) "amount" = r.amount.map Json.num := by
  unfold encodeDocFields
  cases hv : r.amount <;>
    simp [jsonLookup, optField_none, jsonLookup_optField_ne, jsonLookup_optField_some,
      jsonLookup_optField_ne_nil]

theorem encLookup_date (r : ValidatedDoc) :
    jsonLookup (encodeDocFields r) "date" = r.date.map Json.str := by
  unfold encodeDocFields
  cases hv : r.date <;>
    simp [jsonLookup, optField_none, jsonLookup_optField_ne, jsonLookup_optField_some,
      jsonLookup_optField_ne_nil]

theorem encLookup_items (r : ValidatedDoc) :
    jsonLookup (encodeDocFields r) "items"
      = r.items.map (fun its => Json.arr (its.map encodeLineItem)) := by
  unfold encodeDocFields
  cases hv : r.items <;>
    simp [jsonLookup, optField_none, jsonLookup_optField_ne, jsonLookup_optField_some,
      jsonLookup_optField_ne_nil]

theorem encLookup_rawText (r : ValidatedDoc) :
    jsonLookup (encodeDocFields r) "rawText" = r.rawText.map Json.str := by
  unfold encodeDocFields
  cases hv : r.rawText <;>
    simp [jsonLookup, optField_none, jsonLookup_optField_ne, jsonLookup_optField_some,
      jsonLookup_optField_ne_nil]

theorem encLookup_absent (r : ValidatedDoc) (k : String)
    (h : k = "store_name" ∨ k = "merchant" ∨ k = "business_name" ∨ k = "total"
      ∨ k = "total_amount") :
    jsonLookup (encodeDocFields r) k = none := by
  unfold encodeDocFields
  rcases h with rfl | rfl | rfl | rfl | rfl <;>
    simp [jsonLookup, optField_none, jsonLookup_optField_ne, jsonLookup_optField_ne_nil]

theorem documentDataParse_obj (fields : List (String × Json))
    (vendor store_name merchant business_name : Option String)
    (amount total total_amount : Option ℚ) (date : Option String)
    (items : Option (List LineItem)) (rawText : Option String)
    (hv : stringNullish (jsonLookup fields "vendor") = Except.ok vendor)
    (hs : stringNullish (jsonLookup fields "store_name") = Except.ok store_name)
    (hm : stringNullish (jsonLookup fields "merchant") = Except.ok merchant)
    (hb : stringNullish (jsonLookup fields "business_name") = Except.ok business_name)
    (ha : coerceNumberNullish (jsonLookup fields "amount") = Except.ok amount)
    (ht : coerceNumberNullish (jsonLookup fields "total") = Except.ok total)
    (hta : coerceNumberNullish (jsonLookup fields "total_amount") = Except.ok total_amount)
    (hd : stringNullish (jsonLookup fields "date") = Except.ok date)
    (hi : itemsNullish (jsonLookup fields "items") = Except.ok items)
    (hr : stringNullish (jsonLookup fields "rawText") = Except.ok rawText) :
    documentDataParse (Json.obj fields) = Except.ok
      { type := parseTypeField (jsonLookup fields "type")
        vendor := jsNullish vendor (jsNullish store_name (jsNullish merchant business_name))
        amount := jsNullish amount (jsNullish total total_amount)
        date := normalizeDate date
        dateRaw := date
        items := items
        rawText := rawText } := by
  unfold documentDataParse
  simp only []
  rw [hv, hs, hm, hb, ha, ht, hta, hd, hi, hr]

theorem documentDataParse_encode (r : ValidatedDoc)
    (hdate : normalizeDate r.date = r.date)
    (hitems : ∀ its, r.items = some its → ∀ it ∈ its, it.description ≠ "") :
    documentDataParse (encodeValidatedDoc r) = Except.ok { r with dateRaw := r.date } := by
  have hitems' : itemsNullish (r.items.map (fun its => Json.arr (its.map encodeLineItem)))
      = Except.ok r.items := by
    cases hits : r.items with
    | none => rfl
    | some its =>
      simp [itemsNullish, lineItemsParse_encode its (hitems its hits)]
  have hstep := documentDataParse_obj (encodeDocFields r)
    r.vendor none none none r.amount none none r.date r.items r.rawText
    (by rw [encLookup_vendor]; exact stringNullish_mapStr _)
    (by rw [encLookup_absent r _ (Or.inl rfl)]; rfl)
    (by rw [encLookup_absent r _ (Or.inr (Or.inl rfl))]; rfl)
    (by rw [encLookup_absent r _ (Or.inr (Or.inr (Or.inl rfl)))]; rfl)
    (by rw [encLookup_amount]; exact coerceNumberNullish_mapNum _)
    (by rw [encLookup_absent r _ (Or.inr (Or.inr (Or.inr (Or.inl rfl))))]; rfl)
    (by rw [encLookup_absent r _ (Or.inr (Or.inr (Or.inr (Or.inr rfl))))]; rfl)
    (by rw [encLookup_date]; exact stringNullish_mapStr _)
    (by rw [encLookup_items]; exact hitems')
    (by rw [encLookup_rawText]; exact stringNullish_mapStr _)
  unfold encodeValidatedDoc
  rw [hstep, encLookup_type, parseTypeField_typeToString]
  obtain ⟨t, v, a, d, dr, its, rt⟩ := r
  simp [jsNullish_none_right]
  exact hdate

theorem itemsNullish_desc_ne (v : Option Json) (its : List LineItem)
    (h : itemsNullish v = Except.ok (some its)) : ∀ it ∈ its, it.description ≠ "" := by
  unfold itemsNullish at h
  repeat' split at h
  all_goals simp at h
  subst h
  exact lineItemsParse_desc_ne _ _ (by assumption)

/-- C6 (amended): re-validating a validated record preserves `type`,
`vendor`, `amount`, `date`, `items` and `rawText`, but `dateRaw` is
replaced by the normalized date of the first pass (the input `date` key
of the re-encoded record), so the record is a fixed point exactly when
its `dateRaw` already equals its normalized `date`. -/
theorem claim_C6_amended (j : Json) (r : ValidatedDoc)
    (h : documentDataParse j = Except.ok r) :
    documentDataParse (encodeValidatedDoc r) = Except.ok { r with dateRaw := r.date } := by
  cases j with
  | obj fields =>
    obtain ⟨v, sn, mc, bn, a, t2, ta, d, i, rt, hv, hs, hm, hb, ha, ht, hta, hd, hi, hr, hreq⟩ :=
      documentDataParse_ok fields r h
    apply documentDataParse_encode
    · rw [hreq]
      exact normalizeDate_idem d
    · intro its hits it hmem
      rw [hreq] at hits
      simp only [] at hits
      rw [hits] at hi
      exact itemsNullish_desc_ne _ its hi it hmem
  | null => exact absurd h (by simp [documentDataParse])
  | bool b => exact absurd h (by simp [documentDataParse])
  | num q => exact absurd h (by simp [documentDataParse])
  | str s => exact absurd h (by simp [documentDataParse])
  | arr xs => exact absurd h (by simp [documentDataParse])

/-- C6 counterexample: validating `{date: "3/5/24"}` and feeding the
output record back through the validator does NOT reproduce the record:
`dateRaw` changes from `"3/5/24"` to `"2024-03-05"` (the `dateRaw` key of
the re-encoded record is an unknown key and is stripped, and `dateRaw` is
re-derived from the `date` field). -/
theorem claim_C6_counterexample :
    documentDataParse (Json.obj [("date", Json.str "3/5/24")]) = Except.ok
      { type := DocType.other, vendor := none, amount := none, date := some "2024-03-05",
        dateRaw := some "3/5/24", items := none, rawText := none } ∧
    documentDataParse (encodeValidatedDoc
        { type := DocType.other, vendor := none, amount := none, date := some "2024-03-05",
          dateRaw := some "3/5/24", items := none, rawText := none }) = Except.ok
      { type := DocType.other, vendor := none, amount := none, date := some "2024-03-05",
        dateRaw := some "2024-03-05", items := none, rawText := none } ∧
    ({ type := DocType.other, vendor := none, amount := none, date := some "2024-03-05",
       dateRaw := some "3/5/24", items := none, rawText := none } : ValidatedDoc) ≠
      { type := DocType.other, vendor := none, amount := none, date := some "2024-03-05",
        dateRaw := some "2024-03-05", items := none, rawText := none } := by
  refine ⟨rfl, rfl, ?_⟩
  decide

/-- C6 witness: the amended statement applied to the record produced by
validating `{date: "3/5/24"}`. -/
theorem claim_C6_witness :
    documentDataParse (encodeValidatedDoc
        { type := DocType.other, vendor := none, amount := none, date := some "2024-03-05",
          dateRaw := some "3/5/24", items := none, rawText := none }) = Except.ok
      { type := DocType.other, vendor := none, amount := none, date := some "2024-03-05",
        dateRaw := some "2024-03-05", items := none, rawText := none } :=
  claim_C6_amended (Json.obj [("date", Json.str "3/5/24")])
    { type := DocType.other, vendor := none, amount := none, date := some "2024-03-05",
      dateRaw := some "3/5/24", items := none, rawText := none } (by rfl)
